import Mathlib

/-!
Shallow embedding of the D-ABAC-Z trust computation core.

Python floats are modelled as real numbers; a Python `raise` is modelled by
an `Except String` result.  Sources embedded here:

* `src/core/decay_math.py`  — `calculate_time_delta`, `decay_exact`,
  `decay_taylor`, `decay_hybrid`;
* `src/core/hmm_trust.py`   — `calculate_posterior`;
* `src/core/policy_lrap.py` — `calculate_threshold`, `evaluate_access`;
* `src/components/trust_engine.py` — the `TrustEngine` state and its
  `get_effective_trust` / `process_evidence` operations;
* `src/data/config.py`      — the constants `ALPHA` and `LAMBDA`.
-/

namespace DABACZ

noncomputable section

/-! ## `src/core/decay_math.py` -/

/-- `DEFAULT_LAMBDA = 0.05` (decay_math.py line 23). -/
def DEFAULT_LAMBDA : ℝ := 0.05

/-- `calculate_time_delta(current_time, last_update_time)` (decay_math.py
lines 25–44): `delta = current_time - last_update_time`; raises `ValueError`
("Causality violation") when `delta < 0`, else returns `delta`. -/
def calculate_time_delta (current_time last_update_time : ℝ) : Except String ℝ :=
  let delta := current_time - last_update_time
  if delta < 0 then
    .error "Negative time delta detected. Causality violation."
  else
    .ok delta

/-- `decay_exact(trust_prior, delta_t, decay_rate)` (decay_math.py lines
46–67): returns `trust_prior` when `delta_t == 0`, otherwise
`trust_prior * exp(-1.0 * decay_rate * delta_t)`. -/
def decay_exact (trust_prior delta_t decay_rate : ℝ) : ℝ :=
  if delta_t = 0 then trust_prior
  else trust_prior * Real.exp (-1 * decay_rate * delta_t)

/-- `decay_taylor(trust_prior, delta_t, decay_rate)` (decay_math.py lines
69–97): returns `trust_prior` when `delta_t == 0`; computes
`linear_factor = decay_rate * delta_t`; returns `0.0` when
`linear_factor >= 1.0`, else `trust_prior * (1.0 - linear_factor)`. -/
def decay_taylor (trust_prior delta_t decay_rate : ℝ) : ℝ :=
  if delta_t = 0 then trust_prior
  else
    let linear_factor := decay_rate * delta_t
    if 1 ≤ linear_factor then 0
    else trust_prior * (1 - linear_factor)

/-- `decay_hybrid(trust_prior, delta_t, decay_rate, threshold)` (decay_math.py
lines 99–124): `x = decay_rate * delta_t`; if `x < threshold` returns
`trust_prior * (1.0 - x)` (fast path), else `trust_prior * exp(-1.0 * x)`
(slow path). -/
def decay_hybrid (trust_prior delta_t decay_rate threshold : ℝ) : ℝ :=
  let x := decay_rate * delta_t
  if x < threshold then trust_prior * (1 - x)
  else trust_prior * Real.exp (-1 * x)

/-! ## `src/core/hmm_trust.py` -/

/-- `EPSILON = 1e-9` (hmm_trust.py line 25). -/
def EPSILON : ℝ := 1e-9

/-- `calculate_posterior(prior, likelihood_honest, likelihood_compromised)`
(hmm_trust.py lines 44–85): `numerator = likelihood_honest * prior`;
`denominator = likelihood_honest * prior + likelihood_compromised * (1 - prior)`;
returns `prior` when `denominator < EPSILON` (fail-safe), else
`numerator / denominator`. -/
def calculate_posterior (prior likelihood_honest likelihood_compromised : ℝ) : ℝ :=
  let numerator := likelihood_honest * prior
  let prob_compromised := 1 - prior
  let denominator := likelihood_honest * prior + likelihood_compromised * prob_compromised
  if denominator < EPSILON then prior
  else numerator / denominator

/-! ## `src/core/policy_lrap.py` -/

/-- The first token of the `reason` string of an `LRAPResult`
(policy_lrap.py lines 100–103, 113–117, 123–127): the source builds a
human-readable f-string beginning with `DYNAMIC LOCKDOWN`, `PERMIT` or
`DENY`; only this structured tag is modelled. -/
inductive ReasonTag where
  | permit
  | deny
  | lockdown
deriving DecidableEq, Repr

/-- `LRAPResult` (policy_lrap.py lines 28–42): `decision`, `threshold`,
`is_lockdown`, `reason`. -/
structure LRAPResult where
  decision : Bool
  threshold : ℝ
  is_lockdown : Bool
  reason : ReasonTag

/-- `calculate_threshold(base_requirement, risk_score, alpha)` (policy_lrap.py
lines 44–66): `risk_factor = 1.0 + alpha * risk_score`; returns
`base_requirement * risk_factor`. -/
def calculate_threshold (base_requirement risk_score alpha : ℝ) : ℝ :=
  let risk_factor := 1 + alpha * risk_score
  base_requirement * risk_factor

/-- `evaluate_access(user_trust, base_requirement, risk_score, alpha)`
(policy_lrap.py lines 68–128): computes the threshold; if `threshold > 1.0`
returns the lockdown result (`decision=False, is_lockdown=True`); else
grants iff `user_trust >= threshold`. -/
def evaluate_access (user_trust base_requirement risk_score alpha : ℝ) : LRAPResult :=
  let threshold := calculate_threshold base_requirement risk_score alpha
  if 1 < threshold then
    { decision := false, threshold := threshold, is_lockdown := true,
      reason := .lockdown }
  else if threshold ≤ user_trust then
    { decision := true, threshold := threshold, is_lockdown := false,
      reason := .permit }
  else
    { decision := false, threshold := threshold, is_lockdown := false,
      reason := .deny }

/-! ## `src/data/config.py` -/

/-- `ALPHA = 0.5` (config.py line 24). -/
def ALPHA : ℝ := 0.5

/-- `LAMBDA = 0.05` (config.py line 32). -/
def LAMBDA : ℝ := 0.05

/-! ## `src/components/trust_engine.py` -/

/-- One entry of the in-memory database
`{'score': float, 'last_update': float}` (trust_engine.py lines 36–37). -/
structure TrustRecord where
  score : ℝ
  last_update : ℝ

/-- The `TrustEngine._db` map from subject id to record
(trust_engine.py line 37). -/
structure TrustEngineState where
  db : String → Option TrustRecord

/-- `TrustEngine.__init__` / `_seed_data` (trust_engine.py lines 34–48):
the database holding only Dr. Alice with score `0.75` and `last_update`
equal to the construction-time clock reading `t0`. -/
def seed_state (t0 : ℝ) : TrustEngineState :=
  ⟨fun sid => if sid = "alice" then some ⟨0.75, t0⟩ else none⟩

/-- `TrustEngine.get_effective_trust(subject_id)` (trust_engine.py lines
50–90).  The ambient clock reading `time.time()` is the explicit argument
`now`.  Unknown subjects yield `0.0`; otherwise the elapsed time is computed
by `calculate_time_delta` (whose `ValueError` propagates) and the stored
score is decayed by `decay_exact` with rate `LAMBDA`.  The method performs
no assignment to `self._db`, so the state returned alongside the value is
the input state. -/
def get_effective_trust (s : TrustEngineState) (subject_id : String) (now : ℝ) :
    Except String (ℝ × TrustEngineState) :=
  match s.db subject_id with
  | none => .ok (0, s)
  | some state =>
    match calculate_time_delta now state.last_update with
    | .error e => .error e
    | .ok delta_t => .ok (decay_exact state.score delta_t LAMBDA, s)

/-- `TrustEngine.process_evidence(subject_id, evidence_likelihood)`
(trust_engine.py lines 92–142).  The ambient clock readings `time.time()`
are the explicit argument `now` (the source reads the clock for the
bootstrap record and again for `current_time`; both reads are modelled by
the same instant).  Unknown subjects are bootstrapped with score `0.5`;
the stored score is decayed over the elapsed time (a `ValueError` from
`calculate_time_delta` propagates and nothing is committed); the posterior
is computed with `likelihood_compromised = 0.001 if evidence_likelihood > 1
else 0.999` (the hardcoded heuristic on line 129); finally the record
`(posterior, now)` is committed. -/
def process_evidence (s : TrustEngineState) (subject_id : String)
    (evidence_likelihood : ℝ) (now : ℝ) : Except String TrustEngineState :=
  let state := match s.db subject_id with
    | some st => st
    | none => { score := 0.5, last_update := now }
  match calculate_time_delta now state.last_update with
  | .error e => .error e
  | .ok delta_t =>
    let prior_decayed := decay_exact state.score delta_t LAMBDA
    let likelihood_compromised : ℝ := if 1 < evidence_likelihood then 0.001 else 0.999
    let posterior := calculate_posterior prior_decayed evidence_likelihood
      likelihood_compromised
    .ok ⟨fun sid => if sid = subject_id then some ⟨posterior, now⟩ else s.db sid⟩

/-- States of the trust store reachable from the constructor
(`__init__`/`_seed_data`) by successful `process_evidence` calls with a
positive evidence likelihood.  `get_effective_trust` reads perform no
assignment to `_db` (trust_engine.py lines 86–88), so they contribute no
step. -/
inductive Reachable : TrustEngineState → Prop where
  | seed (t0 : ℝ) : Reachable (seed_state t0)
  | step (s s' : TrustEngineState) (sid : String) (L now : ℝ) (hL : 0 < L)
      (h : process_evidence s sid L now = .ok s') (hs : Reachable s) :
      Reachable s'

/-- A concrete one-subject store used to exercise `process_evidence`:
subject `"alice"` with stored score `0.5` and `last_update = 0`. -/
def c10_state : TrustEngineState :=
  ⟨fun sid => if sid = "alice" then some ⟨0.5, 0⟩ else none⟩

/-! ## Helper lemmas -/

/-- `decay_exact` agrees with the closed exponential formula at every
`delta_t`: the `delta_t == 0` early return coincides with `exp 0 = 1`. -/
lemma decay_exact_eq_exp (b dt r : ℝ) :
    decay_exact b dt r = b * Real.exp (-1 * r * dt) := by
  unfold decay_exact
  split
  · rename_i h
    subst h
    simp
  · rfl

/-- `calculate_time_delta` succeeds exactly when time did not run backwards,
and then returns the difference. -/
lemma calculate_time_delta_ok_iff (c l d : ℝ) :
    calculate_time_delta c l = .ok d ↔ l ≤ c ∧ d = c - l := by
  unfold calculate_time_delta
  dsimp only
  split
  · rename_i h
    constructor
    · intro hc
      exact absurd hc (by simp)
    · intro ⟨hlc, _⟩
      linarith [sub_nonneg.mpr hlc]
  · rename_i h
    push_neg at h
    constructor
    · intro hc
      exact ⟨by linarith [sub_nonneg.mp h], (Except.ok.inj hc).symm⟩
    · intro ⟨_, hd⟩
      rw [hd]

lemma EPSILON_pos : (0 : ℝ) < EPSILON := by
  unfold EPSILON
  norm_num

/-- The posterior stays a probability for valid inputs. -/
lemma calculate_posterior_mem_unit (p L Lc : ℝ) (hp0 : 0 ≤ p) (hp1 : p ≤ 1)
    (hL : 0 < L) (hLc : 0 < Lc) :
    0 ≤ calculate_posterior p L Lc ∧ calculate_posterior p L Lc ≤ 1 := by
  unfold calculate_posterior
  dsimp only
  split
  · exact ⟨hp0, hp1⟩
  · rename_i h
    push_neg at h
    have hden : 0 < L * p + Lc * (1 - p) := lt_of_lt_of_le EPSILON_pos h
    constructor
    · exact div_nonneg (by positivity) hden.le
    · rw [div_le_one hden]
      nlinarith

/-- A successful read leaves the state untouched and returns either the
fail-closed `0` for an unknown subject, or the exactly-decayed stored
score. -/
lemma get_effective_trust_ok_inv (s : TrustEngineState) (sid : String)
    (now v : ℝ) (s' : TrustEngineState)
    (h : get_effective_trust s sid now = .ok (v, s')) :
    s' = s ∧
      ((s.db sid = none ∧ v = 0) ∨
        ∃ rec, s.db sid = some rec ∧ rec.last_update ≤ now ∧
          v = decay_exact rec.score (now - rec.last_update) LAMBDA) := by
  unfold get_effective_trust at h
  split at h
  · rename_i hdb
    injection h with h2
    injection h2 with hv hs
    exact ⟨hs.symm, Or.inl ⟨hdb, hv.symm⟩⟩
  · rename_i rec hdb
    split at h
    · exact Except.noConfusion h
    · rename_i dt hcd
      injection h with h2
      injection h2 with hv hs
      obtain ⟨hle, hdteq⟩ := (calculate_time_delta_ok_iff now rec.last_update dt).mp hcd
      exact ⟨hs.symm, Or.inr ⟨rec, hdb, hle, by rw [← hv, hdteq]⟩⟩

/-- A successful write commits, for the written subject, the Bayesian
posterior of the decayed prior with the hardcoded compromised-likelihood
heuristic, stamped with the current time; all other subjects keep their
records. -/
lemma process_evidence_ok_shape (s : TrustEngineState) (sid : String)
    (L now : ℝ) (s' : TrustEngineState)
    (h : process_evidence s sid L now = .ok s') :
    ∃ st : TrustRecord,
      (s.db sid = some st ∨ (s.db sid = none ∧ st = ⟨0.5, now⟩)) ∧
      st.last_update ≤ now ∧
      ∀ sid2, s'.db sid2 = if sid2 = sid then
          some ⟨calculate_posterior
              (decay_exact st.score (now - st.last_update) LAMBDA) L
              (if 1 < L then (0.001 : ℝ) else 0.999), now⟩
        else s.db sid2 := by
  cases hdb : s.db sid with
  | some st =>
    unfold process_evidence at h
    rw [hdb] at h
    dsimp only at h
    cases hcd : calculate_time_delta now st.last_update with
    | error e =>
      rw [hcd] at h
      exact Except.noConfusion h
    | ok dt =>
      rw [hcd] at h
      dsimp only at h
      obtain ⟨hle, hdteq⟩ := (calculate_time_delta_ok_iff now st.last_update dt).mp hcd
      refine ⟨st, Or.inl rfl, hle, ?_⟩
      intro sid2
      injection h with h2
      rw [← h2]
      subst hdteq
      rfl
  | none =>
    unfold process_evidence at h
    rw [hdb] at h
    dsimp only at h
    cases hcd : calculate_time_delta now now with
    | error e =>
      rw [hcd] at h
      exact Except.noConfusion h
    | ok dt =>
      rw [hcd] at h
      dsimp only at h
      obtain ⟨hle, hdteq⟩ := (calculate_time_delta_ok_iff now now dt).mp hcd
      refine ⟨⟨0.5, now⟩, Or.inr ⟨rfl, rfl⟩, le_rfl, ?_⟩
      intro sid2
      injection h with h2
      rw [← h2]
      subst hdteq
      rfl

/-! ## Claim theorems -/

/-- C2: for every trust in [0,1] the evaluator locks down exactly when the
computed threshold exceeds 1; lockdown forces `decision = false`; and when
the threshold is at most 1 access is granted exactly when
`threshold ≤ trust` (boundary inclusive). -/
theorem evaluate_access_spec (trust base risk alpha : ℝ)
    (h0 : 0 ≤ trust) (h1 : trust ≤ 1) :
    ((evaluate_access trust base risk alpha).is_lockdown = true ↔
      1 < calculate_threshold base risk alpha) ∧
    ((evaluate_access trust base risk alpha).is_lockdown = true →
      (evaluate_access trust base risk alpha).decision = false) ∧
    (calculate_threshold base risk alpha ≤ 1 →
      ((evaluate_access trust base risk alpha).decision = true ↔
        calculate_threshold base risk alpha ≤ trust)) := by
  unfold evaluate_access
  dsimp only
  split
  · rename_i hlock
    refine ⟨by simpa using hlock, fun _ => rfl, fun hle => absurd hlock (not_lt.mpr hle)⟩
  · rename_i hlock
    push_neg at hlock
    split
    · rename_i hge
      exact ⟨by simp [hlock.not_lt], by simp, fun _ => by simpa using hge⟩
    · rename_i hge
      push_neg at hge
      exact ⟨by simp [hlock.not_lt], by simp, fun _ => by simpa using hge.not_le⟩

/-- C2 witness: spec scenario 1 (`trust=0.75, base=0.60, alpha=0.5,
risk=0.1`, threshold `0.63`): the grant decision coincides with
`threshold ≤ trust`. -/
theorem evaluate_access_spec_witness :
    (evaluate_access 0.75 0.6 0.1 0.5).decision = true ↔
      calculate_threshold 0.6 0.1 0.5 ≤ 0.75 :=
  (evaluate_access_spec 0.75 0.6 0.1 0.5 (by norm_num) (by norm_num)).2.2
    (by unfold calculate_threshold; norm_num)

/-- C3 counterexample: `decay_exact` called directly with the negative
elapsed time `dt = -1` does not fail; it silently returns the value
`1 * exp(1)`, which even exceeds the prior belief `1`.  The causality
check lives one step earlier, in `calculate_time_delta`. -/
theorem decay_exact_negative_dt_returns_value :
    decay_exact 1 (-1) 1 = Real.exp 1 ∧ 1 < Real.exp 1 := by
  constructor
  · unfold decay_exact
    norm_num
  · linarith [Real.add_one_le_exp 1]

/-- C3 (amended): the causality check is performed by
`calculate_time_delta`, the function every engine path uses to produce the
`dt` it passes to `decay_exact`: it fails with the causality `ValueError`
exactly when `current_time < last_update_time`; and `decay_exact` returns
the belief unchanged at `dt = 0`. -/
theorem causality_error_in_calculate_time_delta :
    (∀ current last : ℝ,
      calculate_time_delta current last =
          .error "Negative time delta detected. Causality violation." ↔
        current < last) ∧
    (∀ b r : ℝ, decay_exact b 0 r = b) := by
  constructor
  · intro current last
    unfold calculate_time_delta
    dsimp only
    split
    · rename_i h
      simpa using by linarith
    · rename_i h
      push_neg at h
      simpa using by linarith
  · intro b r
    unfold decay_exact
    simp

/-- C7: for `dt ≥ 0`, `decay_taylor` returns the floor `0` whenever
`rate*dt ≥ 1`, and `belief * (1 - rate*dt)` otherwise. -/
theorem decay_taylor_floor (b r dt : ℝ) (hdt : 0 ≤ dt) :
    (1 ≤ r * dt → decay_taylor b dt r = 0) ∧
    (r * dt < 1 → decay_taylor b dt r = b * (1 - r * dt)) := by
  unfold decay_taylor
  by_cases h0 : dt = 0
  · subst h0
    norm_num
  · rw [if_neg h0]
    dsimp only
    constructor
    · intro h
      rw [if_pos h]
    · intro h
      rw [if_neg (not_le.mpr h)]

/-- C7 witness: at `b = 0.5, dt = 30, r = 0.05` (so `r*dt = 1.5 ≥ 1`) the
Taylor path floors to `0`; at `b = 0.5, dt = 2, r = 0.05` it is linear. -/
theorem decay_taylor_floor_witness :
    decay_taylor 0.5 30 0.05 = 0 ∧
      decay_taylor 0.5 2 0.05 = 0.5 * (1 - 0.05 * 2) :=
  ⟨(decay_taylor_floor 0.5 0.05 30 (by norm_num)).1 (by norm_num),
   (decay_taylor_floor 0.5 0.05 2 (by norm_num)).2 (by norm_num)⟩

/-- C8: neutral evidence is a no-op (`posterior(p, L, L) = p` for `L > 0`),
and for `p ∈ [0,1]` and positive likelihoods the posterior stays in [0,1]. -/
theorem calculate_posterior_props :
    (∀ p L : ℝ, 0 < L → calculate_posterior p L L = p) ∧
    (∀ p L Lc : ℝ, 0 ≤ p → p ≤ 1 → 0 < L → 0 < Lc →
      0 ≤ calculate_posterior p L Lc ∧ calculate_posterior p L Lc ≤ 1) := by
  constructor
  · intro p L hL
    unfold calculate_posterior
    dsimp only
    split
    · rfl
    · have hden : L * p + L * (1 - p) = L := by ring
      rw [hden, mul_comm, mul_div_assoc, div_self hL.ne', mul_one]
  · intro p L Lc hp0 hp1 hL hLc
    exact calculate_posterior_mem_unit p L Lc hp0 hp1 hL hLc

/-- C8 witness: `posterior(0.75, 2, 2) = 0.75`, and
`posterior(0.5, 2, 0.5) ∈ [0,1]`. -/
theorem calculate_posterior_props_witness :
    calculate_posterior 0.75 2 2 = 0.75 ∧
      (0 ≤ calculate_posterior 0.5 2 0.5 ∧ calculate_posterior 0.5 2 0.5 ≤ 1) :=
  ⟨calculate_posterior_props.1 0.75 2 (by norm_num),
   calculate_posterior_props.2 0.5 2 0.5 (by norm_num) (by norm_num)
     (by norm_num) (by norm_num)⟩

/-- C9: for a fixed base requirement in [0,1], `calculate_threshold` is
non-decreasing in the risk score for fixed `alpha ≥ 0`, and non-decreasing
in `alpha` for fixed risk `≥ 0`. -/
theorem calculate_threshold_monotone (base : ℝ) (hb0 : 0 ≤ base) (hb1 : base ≤ 1) :
    (∀ alpha risk1 risk2 : ℝ, 0 ≤ alpha → risk1 ≤ risk2 →
      calculate_threshold base risk1 alpha ≤ calculate_threshold base risk2 alpha) ∧
    (∀ risk alpha1 alpha2 : ℝ, 0 ≤ risk → alpha1 ≤ alpha2 →
      calculate_threshold base risk alpha1 ≤ calculate_threshold base risk alpha2) := by
  constructor
  · intro alpha risk1 risk2 ha hr
    unfold calculate_threshold
    dsimp only
    nlinarith [mul_nonneg (mul_nonneg hb0 ha) (sub_nonneg.mpr hr)]
  · intro risk alpha1 alpha2 hr ha
    unfold calculate_threshold
    dsimp only
    nlinarith [mul_nonneg (mul_nonneg hb0 hr) (sub_nonneg.mpr ha)]

/-- C9 witness: with `base = 0.6, alpha = 0.5`, raising risk from `0.1` to
`0.9` does not lower the threshold; with `risk = 0.9`, raising `alpha`
from `0.5` to `1` does not lower it either. -/
theorem calculate_threshold_monotone_witness :
    calculate_threshold 0.6 0.1 0.5 ≤ calculate_threshold 0.6 0.9 0.5 ∧
      calculate_threshold 0.6 0.9 0.5 ≤ calculate_threshold 0.6 0.9 1 :=
  ⟨(calculate_threshold_monotone 0.6 (by norm_num) (by norm_num)).1 0.5 0.1 0.9
      (by norm_num) (by norm_num),
   (calculate_threshold_monotone 0.6 (by norm_num) (by norm_num)).2 0.9 0.5 1
      (by norm_num) (by norm_num)⟩

/-- C5: for `dt ≥ 0` and a switch threshold in `(0,1]`, the hybrid mode is
a pure selection: it equals `decay_taylor` when `rate*dt < threshold` and
`decay_exact` otherwise. -/
theorem decay_hybrid_selects (b dt r thr : ℝ) (hdt : 0 ≤ dt)
    (hthr0 : 0 < thr) (hthr1 : thr ≤ 1) :
    (r * dt < thr → decay_hybrid b dt r thr = decay_taylor b dt r) ∧
    (thr ≤ r * dt → decay_hybrid b dt r thr = decay_exact b dt r) := by
  unfold decay_hybrid
  dsimp only
  constructor
  · intro h
    rw [if_pos h]
    unfold decay_taylor
    by_cases h0 : dt = 0
    · subst h0
      simp
    · rw [if_neg h0]
      dsimp only
      rw [if_neg (not_le.mpr (lt_of_lt_of_le h hthr1))]
  · intro h
    rw [if_neg (not_lt.mpr h)]
    have h0 : dt ≠ 0 := by
      intro h0
      rw [h0, mul_zero] at h
      linarith
    unfold decay_exact
    rw [if_neg h0]
    ring_nf

/-- C5 witness: with threshold `0.1`, the point `r*dt = 0.05·1 = 0.05`
takes the Taylor path and `r*dt = 0.05·30 = 1.5` the exact path. -/
theorem decay_hybrid_selects_witness :
    decay_hybrid 1 1 0.05 0.1 = decay_taylor 1 1 0.05 ∧
      decay_hybrid 1 30 0.05 0.1 = decay_exact 1 30 0.05 :=
  ⟨(decay_hybrid_selects 1 1 0.05 0.1 (by norm_num) (by norm_num)
      (by norm_num)).1 (by norm_num),
   (decay_hybrid_selects 1 30 0.05 0.1 (by norm_num) (by norm_num)
      (by norm_num)).2 (by norm_num)⟩

/-- C6: for `b ∈ [0,1]`, `r ≥ 0`, `dt ≥ 0` and `x = r*dt < 1`, the Taylor
path deviates from the exact path by at most the Lagrange remainder
`x*x/2 * b`. -/
theorem decay_taylor_error_bound (b r dt : ℝ) (hb0 : 0 ≤ b) (hb1 : b ≤ 1)
    (hr : 0 ≤ r) (hdt : 0 ≤ dt) (hx1 : r * dt < 1) :
    |decay_exact b dt r - decay_taylor b dt r| ≤ r * dt * (r * dt) / 2 * b := by
  by_cases h0 : dt = 0
  · subst h0
    unfold decay_exact decay_taylor
    simp
  · set x := r * dt with hxdef
    have hx0 : 0 ≤ x := mul_nonneg hr hdt
    have hneg : (-1 : ℝ) * r * dt = -x := by rw [hxdef]; ring
    have hexact : decay_exact b dt r = b * Real.exp (-x) := by
      rw [decay_exact_eq_exp, hneg]
    have htaylor : decay_taylor b dt r = b * (1 - x) := by
      unfold decay_taylor
      rw [if_neg h0]
      dsimp only
      rw [if_neg (not_le.mpr hx1)]
    rw [hexact, htaylor]
    have hlow : 1 - x ≤ Real.exp (-x) := by linarith [Real.add_one_le_exp (-x)]
    have hhigh : Real.exp (-x) ≤ 1 - x + x ^ 2 / 2 := by
      have hq : 1 + x + x ^ 2 / 2 ≤ Real.exp x := Real.quadratic_le_exp_of_nonneg hx0
      have hpos : (0 : ℝ) < 1 + x + x ^ 2 / 2 := by positivity
      have h1 : (Real.exp x)⁻¹ ≤ (1 + x + x ^ 2 / 2)⁻¹ := by
        apply inv_anti₀ hpos hq
      rw [Real.exp_neg]
      refine h1.trans ?_
      rw [inv_eq_one_div, div_le_iff₀ hpos]
      nlinarith [sq_nonneg (x ^ 2)]
    rw [abs_sub_le_iff]
    constructor
    · nlinarith [mul_le_mul_of_nonneg_left hhigh hb0]
    · nlinarith [mul_le_mul_of_nonneg_left hlow hb0,
        mul_nonneg (mul_nonneg hx0 hx0) hb0]

/-- C6 witness: at `b = 1, r = 0.05, dt = 0` the error bound holds
(both paths return the belief unchanged). -/
theorem decay_taylor_error_bound_witness :
    |decay_exact 1 0 0.05 - decay_taylor 1 0 0.05| ≤ 0.05 * 0 * (0.05 * 0) / 2 * 1 :=
  decay_taylor_error_bound 1 0.05 0 (by norm_num) (by norm_num) (by norm_num)
    (by norm_num) (by norm_num)

/-- C1: a successful `get_effective_trust` returns the store unchanged
(no write ever happens on the read path), and two successful reads of the
same subject with no intervening `process_evidence` and a non-decreasing
clock yield a non-increasing pair of effective-trust values (the stored
score being a probability, hence non-negative). -/
theorem get_effective_trust_read_only :
    (∀ s sid now v s', get_effective_trust s sid now = .ok (v, s') → s' = s) ∧
    (∀ s sid t1 t2 v1 s1 v2 s2,
      (∀ rec, s.db sid = some rec → 0 ≤ rec.score) →
      t1 ≤ t2 →
      get_effective_trust s sid t1 = .ok (v1, s1) →
      get_effective_trust s sid t2 = .ok (v2, s2) →
      v2 ≤ v1) := by
  constructor
  · intro s sid now v s' h
    exact (get_effective_trust_ok_inv s sid now v s' h).1
  · intro s sid t1 t2 v1 s1 v2 s2 hscore h12 h1 h2
    obtain ⟨-, hc1⟩ := get_effective_trust_ok_inv s sid t1 v1 s1 h1
    obtain ⟨-, hc2⟩ := get_effective_trust_ok_inv s sid t2 v2 s2 h2
    rcases hc1 with ⟨hdb, hv1⟩ | ⟨rec, hdb, hle1, hv1⟩
    · rcases hc2 with ⟨-, hv2⟩ | ⟨rec, hdb2, -, -⟩
      · rw [hv1, hv2]
      · rw [hdb] at hdb2
        exact Option.noConfusion hdb2
    · rcases hc2 with ⟨hdb2, -⟩ | ⟨rec2, hdb2, hle2, hv2⟩
      · rw [hdb] at hdb2
        exact Option.noConfusion hdb2
      · rw [hdb] at hdb2
        injection hdb2 with he
        subst he
        have hs := hscore rec hdb
        rw [hv1, hv2, decay_exact_eq_exp, decay_exact_eq_exp]
        apply mul_le_mul_of_nonneg_left _ hs
        rw [Real.exp_le_exp]
        unfold LAMBDA
        nlinarith

/-- C1 witness: reading the seeded store at the seed instant succeeds with
value `0.75` and the untouched store, and the two (identical) successive
reads are non-increasing. -/
theorem get_effective_trust_read_only_witness :
    get_effective_trust (seed_state 0) "alice" 0 = .ok (0.75, seed_state 0) ∧
      (0.75 : ℝ) ≤ 0.75 := by
  have hread : get_effective_trust (seed_state 0) "alice" 0 =
      .ok (0.75, seed_state 0) := by
    unfold get_effective_trust seed_state calculate_time_delta decay_exact
    norm_num
  refine ⟨hread, ?_⟩
  exact get_effective_trust_read_only.2 (seed_state 0) "alice" 0 0 0.75
    (seed_state 0) 0.75 (seed_state 0)
    (by
      intro rec hrec
      simp only [seed_state, ite_true, Option.some.injEq] at hrec
      rw [← hrec]
      exact (by norm_num : (0 : ℝ) ≤ 0.75))
    le_rfl hread hread

/-- C4: (i) every state reachable from the constructor through successful
`process_evidence` calls with positive likelihood keeps every stored score
in `[0,1]`; (ii) a successful write never decreases the written subject's
`last_update`; (iii) reads return the store unchanged. -/
theorem trust_store_invariants :
    (∀ s, Reachable s → ∀ sid rec, s.db sid = some rec →
      0 ≤ rec.score ∧ rec.score ≤ 1) ∧
    (∀ s sid L now s' rec rec', s.db sid = some rec →
      process_evidence s sid L now = .ok s' → s'.db sid = some rec' →
      rec.last_update ≤ rec'.last_update) ∧
    (∀ s sid now v s', get_effective_trust s sid now = .ok (v, s') → s' = s) := by
  refine ⟨?_, ?_, ?_⟩
  · intro s hs
    induction hs with
    | seed t0 =>
      intro sid rec hrec
      unfold seed_state at hrec
      dsimp only at hrec
      split at hrec
      · injection hrec with he
        rw [← he]
        constructor <;> norm_num
      · exact Option.noConfusion hrec
    | step s s' sid L now hL h hs ih =>
      intro sid2 rec hrec
      obtain ⟨st, hst, hle, hdb'⟩ := process_evidence_ok_shape s sid L now s' h
      rw [hdb' sid2] at hrec
      split at hrec
      · injection hrec with he
        rw [← he]
        dsimp only
        have hst01 : 0 ≤ st.score ∧ st.score ≤ 1 := by
          rcases hst with hsome | ⟨-, hboot⟩
          · exact ih sid st hsome
          · rw [hboot]
            constructor <;> norm_num
        have hdtpos : 0 ≤ now - st.last_update := sub_nonneg.mpr hle
        have hdec : 0 ≤ decay_exact st.score (now - st.last_update) LAMBDA ∧
            decay_exact st.score (now - st.last_update) LAMBDA ≤ 1 := by
          rw [decay_exact_eq_exp]
          constructor
          · exact mul_nonneg hst01.1 (Real.exp_pos _).le
          · calc st.score * Real.exp (-1 * LAMBDA * (now - st.last_update))
                ≤ 1 * 1 := by
                  apply mul_le_mul hst01.2 ?_ (Real.exp_pos _).le zero_le_one
                  rw [Real.exp_le_one_iff]
                  unfold LAMBDA
                  nlinarith
              _ = 1 := mul_one 1
        have hLc : (0 : ℝ) < if 1 < L then (0.001 : ℝ) else 0.999 := by
          split <;> norm_num
        exact calculate_posterior_mem_unit _ L _ hdec.1 hdec.2 hL hLc
      · exact ih sid2 rec hrec
  · intro s sid L now s' rec rec' hrec h hrec'
    obtain ⟨st, hst, hle, hdb'⟩ := process_evidence_ok_shape s sid L now s' h
    rw [hdb' sid, if_pos rfl] at hrec'
    injection hrec' with he
    rw [← he]
    dsimp only
    rcases hst with hsome | ⟨hnone, -⟩
    · rw [hrec] at hsome
      injection hsome with he2
      rw [he2]
      exact hle
    · rw [hnone] at hrec
      exact Option.noConfusion hrec
  · intro s sid now v s' h
    exact (get_effective_trust_ok_inv s sid now v s' h).1

/-- C4 witness: the seeded store is reachable and its only record, Dr.
Alice's, carries the probability-bounded score `0.75`. -/
theorem trust_store_invariants_witness :
    0 ≤ (0.75 : ℝ) ∧ (0.75 : ℝ) ≤ 1 :=
  trust_store_invariants.1 (seed_state 0) (Reachable.seed 0) "alice" ⟨0.75, 0⟩
    (by simp [seed_state])

/-- C10 counterexample: `process_evidence` exposes no
`likelihoodCompromised` parameter.  On the store holding `("alice", 0.5, 0)`
and evidence likelihood `2`, the committed belief is the posterior taken at
the internally hardcoded compromised-likelihood `0.001`
(namely `2000/2001`), which differs from the posterior a caller choosing
e.g. `0.5` would obtain (`4/5`). -/
theorem process_evidence_ignores_caller_compromised :
    (process_evidence c10_state "alice" 2 0).map (fun t => t.db "alice") =
      .ok (some ⟨calculate_posterior 0.5 2 0.001, 0⟩) ∧
    calculate_posterior 0.5 2 0.001 = 2000 / 2001 ∧
    calculate_posterior 0.5 2 0.5 = 4 / 5 ∧
    (2000 / 2001 : ℝ) ≠ 4 / 5 := by
  refine ⟨?_, ?_, ?_, by norm_num⟩
  · unfold process_evidence c10_state calculate_time_delta decay_exact
    norm_num [Except.map]
  · unfold calculate_posterior EPSILON
    norm_num
  · unfold calculate_posterior EPSILON
    norm_num

/-- C10 (amended): the write path takes a single caller-supplied evidence
likelihood; the compromised-likelihood is derived inside the update path by
the hardcoded rule `0.001 if evidence_likelihood > 1 else 0.999`, and the
committed belief equals the posterior computed with that derived value. -/
theorem process_evidence_commits_heuristic_posterior :
    ∀ s sid L now rec, s.db sid = some rec → rec.last_update ≤ now →
      (process_evidence s sid L now).map (fun t => t.db sid) =
        .ok (some ⟨calculate_posterior
            (decay_exact rec.score (now - rec.last_update) LAMBDA) L
            (if 1 < L then (0.001 : ℝ) else 0.999), now⟩) := by
  intro s sid L now rec hrec hle
  unfold process_evidence
  rw [hrec]
  dsimp only
  rw [(calculate_time_delta_ok_iff now rec.last_update
    (now - rec.last_update)).mpr ⟨hle, rfl⟩]
  dsimp only [Except.map]
  rw [if_pos rfl]

/-- C10 witness: the committed record for `"alice"` on the concrete store
is the posterior at the internally derived compromised-likelihood. -/
theorem process_evidence_commits_heuristic_posterior_witness :
    (process_evidence c10_state "alice" 2 0).map (fun t => t.db "alice") =
      .ok (some ⟨calculate_posterior (decay_exact 0.5 (0 - 0) LAMBDA) 2
        (if (1 : ℝ) < 2 then (0.001 : ℝ) else 0.999), 0⟩) :=
  process_evidence_commits_heuristic_posterior c10_state "alice" 2 0 ⟨0.5, 0⟩
    (by simp [c10_state]) (le_refl 0)

end

end DABACZ
